import Mathlib

/-!
Verification of the subcommand argument parser of the taskchampion CLI
(src/cli/src/argparse/subcommand.rs).

The parser works on a list of string tokens.  A parser either succeeds,
returning the remaining tokens together with the parsed value, or fails,
returning nothing; this mirrors the nom IResult type where an error never
carries consumed input.  The eight subcommand grammars and the dispatcher
are translated from the source.  The external sub-parsers Filter.parse,
Modification.parse and Report.parse are not part of the given source file;
they are modelled from the specification, and the grammar combinators are
additionally parameterised over them so that the structural theorems do not
depend on the model.
-/

namespace Argparse

/-- A token list, the input of every parser (ArgList in the source). -/
abbrev ArgList := List String

/-- A parser over token lists: success returns the remaining tokens and the
parsed value, failure returns none (the nom IResult shape). -/
abbrev Parser (α : Type) := ArgList → Option (ArgList × α)

/-- Matches a single token equal to the given literal (args::literal). -/
def literal (lit : String) : String → Option String := fun tok =>
  if tok = lit then some tok else none

/-- Lifts a single-token matcher to a parser consuming one token
(args::arg_matching). -/
def arg_matching {α : Type} (f : String → Option α) : Parser α := fun input =>
  match input with
  | [] => none
  | tok :: rest =>
    match f tok with
    | some v => some (rest, v)
    | none => none

/-- Ordered alternation: try each parser in order on the same input, first
success wins (the nom alt combinator). -/
def altList {α : Type} : List (Parser α) → Parser α
  | [] => fun _ => none
  | p :: ps => fun input =>
    match p input with
    | some r => some r
    | none => altList ps input

/-- Sequencing of two parsers (the nom pair combinator). -/
def pairP {α β : Type} (p : Parser α) (q : Parser β) : Parser (α × β) := fun input =>
  match p input with
  | none => none
  | some (rest, a) =>
    match q rest with
    | none => none
    | some (rest2, b) => some (rest2, (a, b))

/-- Sequencing of three parsers (the nom tuple combinator at arity 3). -/
def tupleP {α β γ : Type} (p : Parser α) (q : Parser β) (r : Parser γ) :
    Parser (α × β × γ) := fun input =>
  match p input with
  | none => none
  | some (rest, a) =>
    match q rest with
    | none => none
    | some (rest2, b) =>
      match r rest2 with
      | none => none
      | some (rest3, c) => some (rest3, (a, b, c))

/-- Applies a fallible function to a parse result (the nom map_res
combinator). -/
def map_res {α β : Type} (p : Parser α) (f : α → Option β) : Parser β := fun input =>
  match p input with
  | none => none
  | some (rest, a) =>
    match f a with
    | some b => some (rest, b)
    | none => none

/-- Task status (taskchampion::Status). -/
inductive Status where
  | Pending
  | Completed
  | Deleted
deriving DecidableEq, Repr

/-- Modelled from the spec: the description field of a Modification, with
variants Unset, Set(text), Append(text), Prepend(text); the defining file is
not part of the given source. -/
inductive DescriptionMod where
  | Unset
  | Set (text : String)
  | Prepend (text : String)
  | Append (text : String)
deriving DecidableEq, Repr

/-- Modelled from the spec: a Modification is a record of independently
optional fields, notably description, status and active, each defaulting to
no change; the defining file is not part of the given source. -/
structure Modification where
  description : DescriptionMod := DescriptionMod.Unset
  status : Option Status := none
  active : Option Bool := none
deriving DecidableEq, Repr

/-- Modelled from the spec: the task-selection mechanism inside a Filter,
either an explicit id list or the default set of all tasks. -/
inductive Universe where
  | IdList (ids : List Nat)
  | AllTasks
deriving DecidableEq, Repr

/-- Builds an id-list universe (Universe::for_ids in the tests). -/
def Universe.for_ids (ids : List Nat) : Universe :=
  Universe.IdList ids

/-- Modelled from the spec: a Filter selects the target task set through its
universe field, defaulting to all tasks. -/
structure Filter where
  universe_ : Universe := Universe.AllTasks
deriving DecidableEq, Repr

/-- Modelled from the spec: a Report wraps a single Filter, with the default
Filter when absent. -/
structure Report where
  filter : Filter := {}
deriving DecidableEq, Repr

/-- The subcommand value produced by a successful parse (enum Subcommand). -/
inductive Subcommand where
  | Version
  | Help (summary : Bool)
  | Add (modification : Modification)
  | Modify (filter : Filter) (modification : Modification)
  | List (report : Report)
  | Info (filter : Filter) (debug : Bool)
  | Gc
  | Sync
deriving DecidableEq, Repr

/-- Splits a list of characters at commas. -/
def splitCommaAux : List Char → List Char → List (List Char)
  | [], acc => [acc.reverse]
  | c :: cs, acc =>
    if c = ',' then acc.reverse :: splitCommaAux cs [] else splitCommaAux cs (c :: acc)

/-- Splits a token at commas. -/
def splitComma (s : String) : List (List Char) :=
  splitCommaAux s.data []

/-- Reads a digit string as a number. -/
def digitsToNat (cs : List Char) : Nat :=
  cs.foldl (fun n c => n * 10 + (c.toNat - 48)) 0

/-- Modelled from the spec: a token is an id-list argument when it is a
comma-separated list of one or more nonempty digit runs. -/
def isIdList (tok : String) : Bool :=
  (splitComma tok).all (fun p => !p.isEmpty && p.all Char.isDigit)

/-- Modelled from the spec: collects the ids of the leading id-list tokens
and returns them with the remaining tokens. -/
def idTokens : ArgList → List Nat × ArgList
  | [] => ([], [])
  | tok :: rest =>
    if isIdList tok then
      let r := idTokens rest
      ((splitComma tok).map digitsToNat ++ r.1, r.2)
    else ([], tok :: rest)

/-- Modelled from the spec: Filter::parse consumes zero or more leading
tokens that describe which tasks, producing a Filter whose universe is the
collected id list, or the default (all tasks) when nothing matches; it
always succeeds, possibly consuming zero tokens.  The defining file is not
part of the given source. -/
def Filter.parse : Parser Filter := fun input =>
  let r := idTokens input
  some (r.2, { universe_ := if r.1.isEmpty then Universe.AllTasks else Universe.IdList r.1 })

/-- Joins words with single spaces. -/
def joinWords : List String → String
  | [] => ""
  | [w] => w
  | w :: ws => w ++ " " ++ joinWords ws

/-- Modelled from the spec: Modification::parse consumes the trailing tokens
as description words joined by single spaces, setting description to
Set(text); when empty it produces the default no-op Modification.  It always
succeeds.  The defining file is not part of the given source. -/
def Modification.parse : Parser Modification := fun input =>
  match input with
  | [] => some ([], {})
  | _ => some ([], { description := DescriptionMod.Set (joinWords input) })

/-- Modelled from the spec: Report::parse wraps a Filter parse.  The
defining file is not part of the given source. -/
def Report.parse : Parser Report := fun input =>
  match Filter.parse input with
  | none => none
  | some (rest, f) => some (rest, { filter := f })

/-- One usage entry: name, usage form, summary and description
(usage::Subcommand). -/
structure UsageSubcommand where
  name : String
  usageSyntax : String
  summary : String
  description : String
deriving DecidableEq, Repr

/-- The usage registry, an ordered collection of usage entries
(usage::Usage). -/
structure Usage where
  subcommands : List UsageSubcommand := []
deriving DecidableEq, Repr

/-- Version::parse: the result builder always yields Version. -/
def Version.to_subcommand (_ : String) : Option Subcommand :=
  some Subcommand.Version

/-- Version grammar: matches the literal version or --version. -/
def Version.parse : Parser Subcommand :=
  map_res
    (altList [arg_matching (literal "version"), arg_matching (literal "--version")])
    Version.to_subcommand

/-- Help::parse: summary is true exactly when the matched token is -h. -/
def Help.to_subcommand (input : String) : Option Subcommand :=
  some (Subcommand.Help (input == "-h"))

/-- Help grammar: matches the literal help, --help or -h. -/
def Help.parse : Parser Subcommand :=
  map_res
    (altList [arg_matching (literal "help"), arg_matching (literal "--help"),
      arg_matching (literal "-h")])
    Help.to_subcommand

/-- Add::parse: the result builder wraps the parsed Modification. -/
def Add.to_subcommand (input : String × Modification) : Option Subcommand :=
  some (Subcommand.Add input.2)

/-- Add grammar, parameterised over the Modification sub-parser: matches the
literal add followed by a Modification parse. -/
def Add.parseWith (mp : Parser Modification) : Parser Subcommand :=
  map_res (pairP (arg_matching (literal "add")) mp) Add.to_subcommand

/-- Add grammar with the modelled Modification parser. -/
def Add.parse : Parser Subcommand :=
  Add.parseWith Modification.parse

/-- The keyword alternation of the Modify grammar. -/
def Modify.keywords : Parser String :=
  altList [arg_matching (literal "modify"), arg_matching (literal "prepend"),
    arg_matching (literal "append"), arg_matching (literal "start"),
    arg_matching (literal "stop"), arg_matching (literal "done")]

/-- The keyword-driven post-processing inside Modify::to_subcommand: prepend
and append reclassify a Set description, start and stop set the active flag,
done sets the status, and any other keyword leaves the Modification as
parsed. -/
def Modify.postprocess (kw : String) (modification : Modification) : Modification :=
  match kw with
  | "prepend" =>
    match modification.description with
    | DescriptionMod.Set s => { modification with description := DescriptionMod.Prepend s }
    | _ => modification
  | "append" =>
    match modification.description with
    | DescriptionMod.Set s => { modification with description := DescriptionMod.Append s }
    | _ => modification
  | "start" => { modification with active := some true }
  | "stop" => { modification with active := some false }
  | "done" => { modification with status := some Status.Completed }
  | _ => modification

/-- Modify::parse result builder: applies the keyword post-processing to the
parsed Modification. -/
def Modify.to_subcommand (input : Filter × String × Modification) : Option Subcommand :=
  some (Subcommand.Modify input.1 (Modify.postprocess input.2.1 input.2.2))

/-- Modify grammar, parameterised over the Filter and Modification
sub-parsers: a Filter parse, then one of the keywords, then a Modification
parse, post-processed by the matched keyword. -/
def Modify.parseWith (fp : Parser Filter) (mp : Parser Modification) : Parser Subcommand :=
  map_res (tupleP fp Modify.keywords mp) Modify.to_subcommand

/-- Modify grammar with the modelled sub-parsers. -/
def Modify.parse : Parser Subcommand :=
  Modify.parseWith Filter.parse Modification.parse

/-- List::parse result builder: wraps the parsed Report. -/
def List.to_subcommand (input : Report × String) : Option Subcommand :=
  some (Subcommand.List input.1)

/-- List grammar, parameterised over the Report sub-parser: a Report parse
followed by the literal list; the keyword comes after the report. -/
def List.parseWith (rp : Parser Report) : Parser Subcommand :=
  map_res (pairP rp (arg_matching (literal "list"))) List.to_subcommand

/-- List grammar with the modelled Report parser. -/
def List.parse : Parser Subcommand :=
  List.parseWith Report.parse

/-- Info::parse result builder: debug is true exactly when the matched
keyword is debug. -/
def Info.to_subcommand (input : Filter × String) : Option Subcommand :=
  some (Subcommand.Info input.1 (input.2 == "debug"))

/-- Info grammar, parameterised over the Filter sub-parser: a Filter parse
followed by the literal info or debug. -/
def Info.parseWith (fp : Parser Filter) : Parser Subcommand :=
  map_res
    (pairP fp (altList [arg_matching (literal "info"), arg_matching (literal "debug")]))
    Info.to_subcommand

/-- Info grammar with the modelled Filter parser. -/
def Info.parse : Parser Subcommand :=
  Info.parseWith Filter.parse

/-- Gc::parse result builder. -/
def Gc.to_subcommand (_ : String) : Option Subcommand :=
  some Subcommand.Gc

/-- Gc grammar: matches only the literal gc, leaving trailing tokens. -/
def Gc.parse : Parser Subcommand :=
  map_res (arg_matching (literal "gc")) Gc.to_subcommand

/-- Sync::parse result builder. -/
def Sync.to_subcommand (_ : String) : Option Subcommand :=
  some Subcommand.Sync

/-- Sync grammar: matches only the literal sync. -/
def Sync.parse : Parser Subcommand :=
  map_res (arg_matching (literal "sync")) Sync.to_subcommand

/-- The dispatcher, parameterised over the external sub-parsers: tries the
eight grammars in the fixed order Version, Help, Add, Modify, List, Info,
Gc, Sync; first success wins. -/
def Subcommand.parseWith (fp : Parser Filter) (mp : Parser Modification)
    (rp : Parser Report) : Parser Subcommand :=
  altList [Version.parse, Help.parse, Add.parseWith mp, Modify.parseWith fp mp,
    List.parseWith rp, Info.parseWith fp, Gc.parse, Sync.parse]

/-- Subcommand::parse, the dispatcher with the modelled sub-parsers. -/
def Subcommand.parse : Parser Subcommand :=
  Subcommand.parseWith Filter.parse Modification.parse Report.parse

/-- Version::get_usage: pushes one entry. -/
def Version.get_usage (u : Usage) : Usage :=
  { u with subcommands := u.subcommands ++
      [{ name := "version", usageSyntax := "version",
         summary := "Show the TaskChampion version",
         description := "Show the version of the TaskChampion binary" }] }

/-- Help::get_usage: pushes nothing. -/
def Help.get_usage (u : Usage) : Usage :=
  u

/-- Add::get_usage: pushes one entry. -/
def Add.get_usage (u : Usage) : Usage :=
  { u with subcommands := u.subcommands ++
      [{ name := "add", usageSyntax := "add [modification]",
         summary := "Add a new task",
         description := "\n                Add a new, pending task to the list of tasks.  The modification must include a\n                description." }] }

/-- Modify::get_usage: pushes six entries, one per keyword. -/
def Modify.get_usage (u : Usage) : Usage :=
  { u with subcommands := u.subcommands ++
      [{ name := "modify", usageSyntax := "[filter] modify [modification]",
         summary := "Modify tasks",
         description := "\n                Modify all tasks matching the filter." },
       { name := "prepend", usageSyntax := "[filter] prepend [modification]",
         summary := "Prepend task description",
         description := "\n                Modify all tasks matching the filter by inserting the given description before each\n                task description." },
       { name := "append", usageSyntax := "[filter] append [modification]",
         summary := "Append task description",
         description := "\n                Modify all tasks matching the filter by adding the given description to the end\n                of each task description." },
       { name := "start", usageSyntax := "[filter] start [modification]",
         summary := "Start tasks",
         description := "\n                Start all tasks matching the filter, additionally applying any given modifications." },
       { name := "stop", usageSyntax := "[filter] stop [modification]",
         summary := "Stop tasks",
         description := "\n                Stop all tasks matching the filter, additionally applying any given modifications." },
       { name := "done", usageSyntax := "[filter] done [modification]",
         summary := "Mark tasks as completed",
         description := "\n                Mark all tasks matching the filter as completed, additionally applying any given\n                modifications." }] }

/-- List::get_usage: pushes one entry. -/
def List.get_usage (u : Usage) : Usage :=
  { u with subcommands := u.subcommands ++
      [{ name := "list", usageSyntax := "[filter] list",
         summary := "List tasks",
         description := "\n                Show a list of the tasks matching the filter" }] }

/-- Info::get_usage: pushes two entries. -/
def Info.get_usage (u : Usage) : Usage :=
  { u with subcommands := u.subcommands ++
      [{ name := "info", usageSyntax := "[filter] info",
         summary := "Show tasks",
         description := " Show information about all tasks matching the fiter." },
       { name := "debug", usageSyntax := "[filter] debug",
         summary := "Show task debug details",
         description := " Show all key/value properties of the tasks matching the fiter." }] }

/-- Gc::get_usage: pushes one entry. -/
def Gc.get_usage (u : Usage) : Usage :=
  { u with subcommands := u.subcommands ++
      [{ name := "gc", usageSyntax := "gc",
         summary := "Perform garbage collection",
         description := "\n                Perform garbage collection.  This refreshes the list of pending tasks\n                and their short ids." }] }

/-- Sync::get_usage: pushes one entry. -/
def Sync.get_usage (u : Usage) : Usage :=
  { u with subcommands := u.subcommands ++
      [{ name := "sync", usageSyntax := "sync",
         summary := "Synchronize this replica",
         description := "\n                Synchronize this replica locally or against a remote server, as configured.\n\n                Synchronization is a critical part of maintaining the task database, and should\n                be done regularly, even if only locally.  It is typically run in a crontask." }] }

/-- Subcommand::get_usage: calls each get_usage in the fixed order Version,
Help, Add, Modify, List, Info, Gc, Sync. -/
def Subcommand.get_usage (u : Usage) : Usage :=
  Sync.get_usage (Gc.get_usage (Info.get_usage (List.get_usage (Modify.get_usage
    (Add.get_usage (Help.get_usage (Version.get_usage u)))))))

example : Subcommand.parse ["version"] = some ([], Subcommand.Version) := by decide

example : Subcommand.parse ["-h"] = some ([], Subcommand.Help true) := by decide

example : Subcommand.parse ["help"] = some ([], Subcommand.Help false) := by decide

example : Subcommand.parse ["add", "foo", "bar"] =
    some ([], Subcommand.Add { description := DescriptionMod.Set "foo bar" }) := by decide

example : Subcommand.parse ["123", "modify", "foo", "bar"] =
    some ([], Subcommand.Modify { universe_ := Universe.IdList [123] }
      { description := DescriptionMod.Set "foo bar" }) := by decide

example : Subcommand.parse ["123", "append", "foo", "bar"] =
    some ([], Subcommand.Modify { universe_ := Universe.IdList [123] }
      { description := DescriptionMod.Append "foo bar" }) := by decide

example : Subcommand.parse ["123", "done"] =
    some ([], Subcommand.Modify { universe_ := Universe.IdList [123] }
      { status := some Status.Completed }) := by decide

example : Subcommand.parse ["list"] = some ([], Subcommand.List {}) := by decide

example : Subcommand.parse ["12,13", "list"] =
    some ([], Subcommand.List { filter := { universe_ := Universe.IdList [12, 13] } }) := by
  decide

example : Subcommand.parse ["12", "debug"] =
    some ([], Subcommand.Info { universe_ := Universe.IdList [12] } true) := by decide

example : Subcommand.parse ["gc", "foo"] = some (["foo"], Subcommand.Gc) := by decide

example : Subcommand.parse ["bogus"] = none := by decide

example : Subcommand.parse [] = none := by decide

/-! Helper lemmas about the combinators. -/

theorem altList_nil {α : Type} (input : ArgList) :
    altList ([] : List (Parser α)) input = none :=
  rfl

theorem altList_cons_some {α : Type} {p : Parser α} {ps : List (Parser α)}
    {input : ArgList} {r : ArgList × α} (h : p input = some r) :
    altList (p :: ps) input = some r := by
  simp [altList, h]

theorem altList_cons_none {α : Type} {p : Parser α} {ps : List (Parser α)}
    {input : ArgList} (h : p input = none) :
    altList (p :: ps) input = altList ps input := by
  simp [altList, h]

theorem altList_cons_eq_some {α : Type} {p : Parser α} {ps : List (Parser α)}
    {input : ArgList} {r : ArgList × α} :
    altList (p :: ps) input = some r ↔
      p input = some r ∨ (p input = none ∧ altList ps input = some r) := by
  cases h : p input <;> simp [altList, h]

theorem altList_cons_eq_none {α : Type} {p : Parser α} {ps : List (Parser α)}
    {input : ArgList} :
    altList (p :: ps) input = none ↔ p input = none ∧ altList ps input = none := by
  cases h : p input <;> simp [altList, h]

theorem arg_matching_literal_eq_some {k : String} {input rest : ArgList} {v : String} :
    arg_matching (literal k) input = some (rest, v) ↔ input = k :: rest ∧ v = k := by
  cases input with
  | nil => simp [arg_matching]
  | cons t ts =>
    by_cases h : t = k
    · subst h
      simp only [arg_matching, literal, if_pos rfl]
      constructor
      · intro he
        cases he
        exact ⟨rfl, rfl⟩
      · rintro ⟨h1, h2⟩
        cases h1
        cases h2
        rfl
    · simp [arg_matching, literal, h, Ne.symm h]

theorem map_res_eq_some {α β : Type} {p : Parser α} {f : α → Option β}
    {input rest : ArgList} {b : β} :
    map_res p f input = some (rest, b) ↔
      ∃ a, p input = some (rest, a) ∧ f a = some b := by
  cases hp : p input with
  | none => simp [map_res, hp]
  | some r =>
    obtain ⟨rest1, a⟩ := r
    cases hf : f a with
    | none => simp [map_res, hp, hf]
    | some b1 =>
      simp [map_res, hp, hf]
      aesop

theorem map_res_eq_none {α β : Type} {p : Parser α} {f : α → Option β}
    {input : ArgList} (h : p input = none) :
    map_res p f input = none := by
  unfold map_res
  rw [h]

theorem pairP_eq_some {α β : Type} {p : Parser α} {q : Parser β}
    {input rest : ArgList} {v : α × β} :
    pairP p q input = some (rest, v) ↔
      ∃ rest1, p input = some (rest1, v.1) ∧ q rest1 = some (rest, v.2) := by
  obtain ⟨a, b⟩ := v
  cases hp : p input with
  | none => simp [pairP, hp]
  | some r =>
    obtain ⟨rest1, a1⟩ := r
    cases hq : q rest1 with
    | none => simp [pairP, hp, hq]
    | some s =>
      obtain ⟨rest2, b1⟩ := s
      simp [pairP, hp, hq]
      aesop

theorem tupleP_eq_some {α β γ : Type} {p : Parser α} {q : Parser β} {r : Parser γ}
    {input rest : ArgList} {v : α × β × γ} :
    tupleP p q r input = some (rest, v) ↔
      ∃ rest1 rest2, p input = some (rest1, v.1) ∧ q rest1 = some (rest2, v.2.1) ∧
        r rest2 = some (rest, v.2.2) := by
  obtain ⟨a, b, c⟩ := v
  cases hp : p input with
  | none => simp [tupleP, hp]
  | some s =>
    obtain ⟨rest1, a1⟩ := s
    cases hq : q rest1 with
    | none => simp [tupleP, hp, hq]
    | some t =>
      obtain ⟨rest2, b1⟩ := t
      cases hr : r rest2 with
      | none => simp [tupleP, hp, hq, hr]
      | some u =>
        obtain ⟨rest3, c1⟩ := u
        simp [tupleP, hp, hq, hr]
        aesop

theorem keywords_eq_some {input rest : ArgList} {kw : String}
    (h : Modify.keywords input = some (rest, kw)) :
    input = kw :: rest ∧
      (kw = "modify" ∨ kw = "prepend" ∨ kw = "append" ∨ kw = "start" ∨
        kw = "stop" ∨ kw = "done") := by
  unfold Modify.keywords at h
  rcases altList_cons_eq_some.mp h with h1 | ⟨-, h1⟩
  · obtain ⟨he, hk⟩ := arg_matching_literal_eq_some.mp h1
    subst hk
    exact ⟨he, Or.inl rfl⟩
  rcases altList_cons_eq_some.mp h1 with h2 | ⟨-, h2⟩
  · obtain ⟨he, hk⟩ := arg_matching_literal_eq_some.mp h2
    subst hk
    exact ⟨he, Or.inr (Or.inl rfl)⟩
  rcases altList_cons_eq_some.mp h2 with h3 | ⟨-, h3⟩
  · obtain ⟨he, hk⟩ := arg_matching_literal_eq_some.mp h3
    subst hk
    exact ⟨he, Or.inr (Or.inr (Or.inl rfl))⟩
  rcases altList_cons_eq_some.mp h3 with h4 | ⟨-, h4⟩
  · obtain ⟨he, hk⟩ := arg_matching_literal_eq_some.mp h4
    subst hk
    exact ⟨he, Or.inr (Or.inr (Or.inr (Or.inl rfl)))⟩
  rcases altList_cons_eq_some.mp h4 with h5 | ⟨-, h5⟩
  · obtain ⟨he, hk⟩ := arg_matching_literal_eq_some.mp h5
    subst hk
    exact ⟨he, Or.inr (Or.inr (Or.inr (Or.inr (Or.inl rfl))))⟩
  rcases altList_cons_eq_some.mp h5 with h6 | ⟨-, h6⟩
  · obtain ⟨he, hk⟩ := arg_matching_literal_eq_some.mp h6
    subst hk
    exact ⟨he, Or.inr (Or.inr (Or.inr (Or.inr (Or.inr rfl))))⟩
  exact absurd h6 (by simp [altList_nil])

/-! The claim theorems. -/

/-- Claim C4: for every token stream whose first token is help, --help or
-h, the Help grammar succeeds and produces Help with summary true exactly
when the matched token is -h, while help and --help produce summary false;
the result builder derives the flag only from the matched literal. -/
theorem c4_help_summary :
    (∀ tok rest, (tok = "help" ∨ tok = "--help" ∨ tok = "-h") →
      Help.parse (tok :: rest) = some (rest, Subcommand.Help (tok == "-h")))
    ∧ (∀ s, Help.to_subcommand s = some (Subcommand.Help (s == "-h")))
    ∧ ("help" == "-h") = false ∧ ("--help" == "-h") = false ∧ ("-h" == "-h") = true := by
  refine ⟨?_, fun s => rfl, by decide, by decide, by decide⟩
  intro tok rest h
  rcases h with h | h | h <;> subst h <;> rfl

/-- Witness for C4: the Help grammar at the three concrete keywords. -/
theorem c4_help_summary_witness :
    Help.parse ["-h"] = some ([], Subcommand.Help true)
    ∧ Help.parse ["help"] = some ([], Subcommand.Help false)
    ∧ Help.parse ["--help"] = some ([], Subcommand.Help false) :=
  ⟨c4_help_summary.1 "-h" [] (Or.inr (Or.inr rfl)),
   c4_help_summary.1 "help" [] (Or.inl rfl),
   c4_help_summary.1 "--help" [] (Or.inr (Or.inl rfl))⟩

/-- Claim C6: every token list whose first token is gc parses to Gc with
exactly the tokens after gc as the remainder; trailing tokens are left
unconsumed. -/
theorem c6_gc_trailing (rest : ArgList) :
    Subcommand.parse ("gc" :: rest) = some (rest, Subcommand.Gc) :=
  rfl

/-- Witness for C6 at the concrete inputs of the tests. -/
theorem c6_gc_trailing_witness :
    Subcommand.parse ["gc"] = some ([], Subcommand.Gc)
    ∧ Subcommand.parse ["gc", "foo"] = some (["foo"], Subcommand.Gc) :=
  ⟨c6_gc_trailing [], c6_gc_trailing ["foo"]⟩

/-- Claim C7: the dispatcher is a pure, deterministic function of its input:
equal inputs yield equal results. -/
theorem c7_parse_pure (input1 input2 : ArgList) (h : input1 = input2) :
    Subcommand.parse input1 = Subcommand.parse input2 := by
  rw [h]

/-- Witness for C7 at a concrete input. -/
theorem c7_parse_pure_witness :
    Subcommand.parse ["gc"] = Subcommand.parse ["gc"] :=
  c7_parse_pure ["gc"] ["gc"] rfl

/-- Claim C8: the keyword post-processing changes at most the field named by
the matched keyword: start and stop leave description and status as parsed,
done leaves description and active as parsed, and prepend and append leave
active and status as parsed. -/
theorem c8_postprocess_frame (m : Modification) :
    ((Modify.postprocess "start" m).description = m.description
      ∧ (Modify.postprocess "start" m).status = m.status)
    ∧ ((Modify.postprocess "stop" m).description = m.description
      ∧ (Modify.postprocess "stop" m).status = m.status)
    ∧ ((Modify.postprocess "done" m).description = m.description
      ∧ (Modify.postprocess "done" m).active = m.active)
    ∧ ((Modify.postprocess "prepend" m).active = m.active
      ∧ (Modify.postprocess "prepend" m).status = m.status)
    ∧ ((Modify.postprocess "append" m).active = m.active
      ∧ (Modify.postprocess "append" m).status = m.status) := by
  obtain ⟨d, st, ac⟩ := m
  refine ⟨⟨rfl, rfl⟩, ⟨rfl, rfl⟩, ⟨rfl, rfl⟩, ?_, ?_⟩ <;> cases d <;> exact ⟨rfl, rfl⟩

/-- Witness for C8 at a concrete Modification. -/
theorem c8_postprocess_frame_witness :
    (Modify.postprocess "start" { description := DescriptionMod.Set "x" }).description
        = DescriptionMod.Set "x"
    ∧ (Modify.postprocess "start" { description := DescriptionMod.Set "x" }).status = none :=
  (c8_postprocess_frame { description := DescriptionMod.Set "x" }).1

/-- Claim C9: applied to the empty token list, each of the eight grammars
fails, so the dispatcher fails as well and no Subcommand is produced. -/
theorem c9_empty_input_fails :
    Version.parse [] = none ∧ Help.parse [] = none ∧ Add.parse [] = none
    ∧ Modify.parse [] = none ∧ List.parse [] = none ∧ Info.parse [] = none
    ∧ Gc.parse [] = none ∧ Sync.parse [] = none ∧ Subcommand.parse [] = none := by
  decide

/-- Claim C10: one call to get_usage on a fresh registry appends exactly 13
entries in the order version, add, modify, prepend, append, start, stop,
done, list, info, debug, gc, sync; Help contributes no entry, so the help
keywords never appear in the registry. -/
theorem c10_usage_entries :
    ((Subcommand.get_usage {}).subcommands.map UsageSubcommand.name) =
      ["version", "add", "modify", "prepend", "append", "start", "stop", "done",
        "list", "info", "debug", "gc", "sync"]
    ∧ (Subcommand.get_usage {}).subcommands.length = 13
    ∧ (∀ u : Usage, Help.get_usage u = u)
    ∧ (((Subcommand.get_usage {}).subcommands.map UsageSubcommand.name).contains "help") = false
    ∧ (((Subcommand.get_usage {}).subcommands.map UsageSubcommand.name).contains "--help") = false
    ∧ (((Subcommand.get_usage {}).subcommands.map UsageSubcommand.name).contains "-h") = false :=
  ⟨by decide, by decide, fun u => rfl, by decide, by decide, by decide⟩

/-- Witness for C10: the Help grammar leaves a concrete registry
unchanged. -/
theorem c10_usage_entries_witness :
    Help.get_usage {} = ({} : Usage) :=
  c10_usage_entries.2.2.1 {}

/-- Claim C1: whenever the Modify grammar succeeds, the result is the parsed
Modification post-processed by the matched keyword: prepend rewrites only a
Set description into Prepend, append only a Set description into Append,
start sets active to true, stop sets active to false, done sets status to
Completed, and modify applies no post-processing. -/
theorem c1_modify_postprocess :
    (∀ (fp : Parser Filter) (mp : Parser Modification) (input rest : ArgList)
        (v : Subcommand),
      Modify.parseWith fp mp input = some (rest, v) →
        ∃ f kw m rest1 rest2, fp input = some (rest1, f)
          ∧ Modify.keywords rest1 = some (rest2, kw)
          ∧ rest1 = kw :: rest2
          ∧ (kw = "modify" ∨ kw = "prepend" ∨ kw = "append" ∨ kw = "start"
              ∨ kw = "stop" ∨ kw = "done")
          ∧ mp rest2 = some (rest, m)
          ∧ v = Subcommand.Modify f (Modify.postprocess kw m))
    ∧ (∀ m text, m.description = DescriptionMod.Set text →
        Modify.postprocess "prepend" m = { m with description := DescriptionMod.Prepend text })
    ∧ (∀ m, (∀ text, m.description ≠ DescriptionMod.Set text) →
        Modify.postprocess "prepend" m = m)
    ∧ (∀ m text, m.description = DescriptionMod.Set text →
        Modify.postprocess "append" m = { m with description := DescriptionMod.Append text })
    ∧ (∀ m, (∀ text, m.description ≠ DescriptionMod.Set text) →
        Modify.postprocess "append" m = m)
    ∧ (∀ m, Modify.postprocess "start" m = { m with active := some true })
    ∧ (∀ m, Modify.postprocess "stop" m = { m with active := some false })
    ∧ (∀ m, Modify.postprocess "done" m = { m with status := some Status.Completed })
    ∧ (∀ m, Modify.postprocess "modify" m = m) := by
  refine ⟨?_, ?_, ?_, ?_, ?_, fun m => rfl, fun m => rfl, fun m => rfl, fun m => rfl⟩
  · intro fp mp input rest v h
    unfold Modify.parseWith at h
    obtain ⟨⟨f, kw, m⟩, htup, hts⟩ := map_res_eq_some.mp h
    obtain ⟨rest1, rest2, hfp, hkw, hmp⟩ := tupleP_eq_some.mp htup
    obtain ⟨he, hmem⟩ := keywords_eq_some hkw
    simp only [Modify.to_subcommand, Option.some.injEq] at hts
    exact ⟨f, kw, m, rest1, rest2, hfp, hkw, he, hmem, hmp, hts.symm⟩
  · intro m text h
    obtain ⟨d, st, ac⟩ := m
    simp only at h
    subst h
    rfl
  · intro m h
    obtain ⟨d, st, ac⟩ := m
    cases d with
    | Set s => exact absurd rfl (h s)
    | Unset => rfl
    | Prepend s => rfl
    | Append s => rfl
  · intro m text h
    obtain ⟨d, st, ac⟩ := m
    simp only at h
    subst h
    rfl
  · intro m h
    obtain ⟨d, st, ac⟩ := m
    cases d with
    | Set s => exact absurd rfl (h s)
    | Unset => rfl
    | Prepend s => rfl
    | Append s => rfl

/-- Witness for C1: the decomposition at a concrete successful parse, and
the no-op behaviour of prepend at a Modification without a Set
description. -/
theorem c1_modify_postprocess_witness :
    (∃ f kw m rest1 rest2,
      Filter.parse ["123", "done"] = some (rest1, f)
      ∧ Modify.keywords rest1 = some (rest2, kw)
      ∧ rest1 = kw :: rest2
      ∧ (kw = "modify" ∨ kw = "prepend" ∨ kw = "append" ∨ kw = "start"
          ∨ kw = "stop" ∨ kw = "done")
      ∧ Modification.parse rest2 = some ([], m)
      ∧ Subcommand.Modify { universe_ := Universe.IdList [123] }
          { status := some Status.Completed } = Subcommand.Modify f (Modify.postprocess kw m))
    ∧ Modify.postprocess "prepend" { active := some true } = { active := some true } :=
  ⟨c1_modify_postprocess.1 Filter.parse Modification.parse ["123", "done"] []
      (Subcommand.Modify { universe_ := Universe.IdList [123] }
        { status := some Status.Completed }) rfl,
   c1_modify_postprocess.2.2.1 { active := some true }
     (fun text h => by cases h)⟩

/-- Claim C2: the dispatcher tries the eight grammars in the fixed order
Version, Help, Add, Modify, List, Info, Gc, Sync, returns the result of the
first grammar that succeeds, and fails exactly when all eight grammars
fail. -/
theorem c2_dispatcher_order (input : ArgList) :
    (∀ r, Version.parse input = some r → Subcommand.parse input = some r)
    ∧ (∀ r, Version.parse input = none → Help.parse input = some r →
        Subcommand.parse input = some r)
    ∧ (∀ r, Version.parse input = none → Help.parse input = none →
        Add.parse input = some r → Subcommand.parse input = some r)
    ∧ (∀ r, Version.parse input = none → Help.parse input = none →
        Add.parse input = none → Modify.parse input = some r →
        Subcommand.parse input = some r)
    ∧ (∀ r, Version.parse input = none → Help.parse input = none →
        Add.parse input = none → Modify.parse input = none →
        List.parse input = some r → Subcommand.parse input = some r)
    ∧ (∀ r, Version.parse input = none → Help.parse input = none →
        Add.parse input = none → Modify.parse input = none →
        List.parse input = none → Info.parse input = some r →
        Subcommand.parse input = some r)
    ∧ (∀ r, Version.parse input = none → Help.parse input = none →
        Add.parse input = none → Modify.parse input = none →
        List.parse input = none → Info.parse input = none →
        Gc.parse input = some r → Subcommand.parse input = some r)
    ∧ (∀ r, Version.parse input = none → Help.parse input = none →
        Add.parse input = none → Modify.parse input = none →
        List.parse input = none → Info.parse input = none →
        Gc.parse input = none → Sync.parse input = some r →
        Subcommand.parse input = some r)
    ∧ (Subcommand.parse input = none ↔
        (Version.parse input = none ∧ Help.parse input = none
          ∧ Add.parse input = none ∧ Modify.parse input = none
          ∧ List.parse input = none ∧ Info.parse input = none
          ∧ Gc.parse input = none ∧ Sync.parse input = none)) := by
  have hrfl : Subcommand.parse input = altList [Version.parse, Help.parse, Add.parse,
      Modify.parse, List.parse, Info.parse, Gc.parse, Sync.parse] input := rfl
  refine ⟨?_, ?_, ?_, ?_, ?_, ?_, ?_, ?_, ?_⟩
  · intro r h1
    rw [hrfl]
    exact altList_cons_some h1
  · intro r h1 h2
    rw [hrfl, altList_cons_none h1]
    exact altList_cons_some h2
  · intro r h1 h2 h3
    rw [hrfl, altList_cons_none h1, altList_cons_none h2]
    exact altList_cons_some h3
  · intro r h1 h2 h3 h4
    rw [hrfl, altList_cons_none h1, altList_cons_none h2, altList_cons_none h3]
    exact altList_cons_some h4
  · intro r h1 h2 h3 h4 h5
    rw [hrfl, altList_cons_none h1, altList_cons_none h2, altList_cons_none h3,
      altList_cons_none h4]
    exact altList_cons_some h5
  · intro r h1 h2 h3 h4 h5 h6
    rw [hrfl, altList_cons_none h1, altList_cons_none h2, altList_cons_none h3,
      altList_cons_none h4, altList_cons_none h5]
    exact altList_cons_some h6
  · intro r h1 h2 h3 h4 h5 h6 h7
    rw [hrfl, altList_cons_none h1, altList_cons_none h2, altList_cons_none h3,
      altList_cons_none h4, altList_cons_none h5, altList_cons_none h6]
    exact altList_cons_some h7
  · intro r h1 h2 h3 h4 h5 h6 h7 h8
    rw [hrfl, altList_cons_none h1, altList_cons_none h2, altList_cons_none h3,
      altList_cons_none h4, altList_cons_none h5, altList_cons_none h6,
      altList_cons_none h7]
    exact altList_cons_some h8
  · rw [hrfl]
    simp only [altList_cons_eq_none, altList_nil, and_true]

/-- Witness for C2: the first-success and the fail-iff-all-fail conjuncts at
concrete inputs. -/
theorem c2_dispatcher_order_witness :
    Subcommand.parse ["sync"] = some ([], Subcommand.Sync)
    ∧ Subcommand.parse ["version", "x"] = some (["x"], Subcommand.Version)
    ∧ Subcommand.parse ["bogus"] = none :=
  ⟨(c2_dispatcher_order ["sync"]).2.2.2.2.2.2.2.1 ([], Subcommand.Sync)
      rfl rfl rfl rfl rfl rfl rfl rfl,
   (c2_dispatcher_order ["version", "x"]).1 (["x"], Subcommand.Version) rfl,
   ((c2_dispatcher_order ["bogus"]).2.2.2.2.2.2.2.2).mpr
      ⟨rfl, rfl, rfl, rfl, rfl, rfl, rfl, rfl⟩⟩

/-- Claim C3: a failing Filter, Report or Modification sub-parse makes the
whole grammar alternative fail; a failed alternative falls through to the
next alternative, which receives the original input unchanged; and all
dispatcher failures are one and the same unconsuming no-match result. -/
theorem c3_failure_propagation :
    (∀ (mp : Parser Modification) (rest : ArgList), mp rest = none →
      Add.parseWith mp ("add" :: rest) = none)
    ∧ (∀ (fp : Parser Filter) (mp : Parser Modification) (input rest1 rest2 : ArgList)
        (f : Filter) (kw : String),
        fp input = some (rest1, f) → Modify.keywords rest1 = some (rest2, kw) →
        mp rest2 = none → Modify.parseWith fp mp input = none)
    ∧ (∀ (fp : Parser Filter) (mp : Parser Modification) (input : ArgList),
        fp input = none → Modify.parseWith fp mp input = none)
    ∧ (∀ (rp : Parser Report) (input : ArgList), rp input = none →
        List.parseWith rp input = none)
    ∧ (∀ (fp : Parser Filter) (input : ArgList), fp input = none →
        Info.parseWith fp input = none)
    ∧ (∀ (p : Parser Subcommand) (ps : List (Parser Subcommand)) (input : ArgList),
        p input = none → altList (p :: ps) input = altList ps input)
    ∧ (∀ input1 input2 : ArgList, Subcommand.parse input1 = none →
        Subcommand.parse input2 = none →
        Subcommand.parse input1 = Subcommand.parse input2) := by
  refine ⟨?_, ?_, ?_, ?_, ?_, ?_, ?_⟩
  · intro mp rest h
    apply map_res_eq_none
    simp [pairP, arg_matching, literal, h]
  · intro fp mp input rest1 rest2 f kw h1 h2 h3
    apply map_res_eq_none
    simp [tupleP, h1, h2, h3]
  · intro fp mp input h
    apply map_res_eq_none
    simp [tupleP, h]
  · intro rp input h
    apply map_res_eq_none
    simp [pairP, h]
  · intro fp input h
    apply map_res_eq_none
    simp [pairP, h]
  · intro p ps input h
    exact altList_cons_none h
  · intro input1 input2 h1 h2
    rw [h1, h2]

/-- Witness for C3: a failing Modification sub-parse after the add keyword,
a failing Modification sub-parse after a matched modify keyword, and the
fall-through of a failed alternative at concrete inputs. -/
theorem c3_failure_propagation_witness :
    Add.parseWith (fun _ => none) ["add"] = none
    ∧ Modify.parseWith Filter.parse (fun _ => none) ["123", "modify"] = none
    ∧ altList [fun _ => none, Gc.parse] ["gc"] = altList [Gc.parse] ["gc"]
    ∧ Subcommand.parse ["bogus"] = Subcommand.parse ["nonsense"] :=
  ⟨c3_failure_propagation.1 (fun _ => none) [] rfl,
   c3_failure_propagation.2.1 Filter.parse (fun _ => none) ["123", "modify"]
     ["modify"] [] { universe_ := Universe.IdList [123] } "modify" rfl rfl rfl,
   c3_failure_propagation.2.2.2.2.2.1 (fun _ => none) [Gc.parse] ["gc"] rfl,
   c3_failure_propagation.2.2.2.2.2.2 ["bogus"] ["nonsense"] rfl rfl⟩

/-- Claim C5: the List grammar is a Report parse followed by the literal
list, with the keyword after the report; the single token list succeeds
with the default report, and the id list 12,13 before list yields a report
whose filter universe is the ids 12 and 13. -/
theorem c5_list_grammar :
    (∀ (rp : Parser Report) (input rest : ArgList) (v : Subcommand),
      List.parseWith rp input = some (rest, v) →
        ∃ r, rp input = some ("list" :: rest, r) ∧ v = Subcommand.List r)
    ∧ Subcommand.parse ["list"] = some ([], Subcommand.List {})
    ∧ Subcommand.parse ["12,13", "list"] =
        some ([], Subcommand.List { filter := { universe_ := Universe.IdList [12, 13] } }) := by
  refine ⟨?_, by decide, by decide⟩
  intro rp input rest v h
  unfold List.parseWith at h
  obtain ⟨⟨r, s⟩, hp, hts⟩ := map_res_eq_some.mp h
  obtain ⟨rest1, hrp, hlit⟩ := pairP_eq_some.mp hp
  obtain ⟨he, hs⟩ := arg_matching_literal_eq_some.mp hlit
  simp only [List.to_subcommand, Option.some.injEq] at hts
  subst he
  exact ⟨r, hrp, hts.symm⟩

/-- Witness for C5: the decomposition at the concrete single-token input. -/
theorem c5_list_grammar_witness :
    ∃ r, Report.parse ["list"] = some ("list" :: [], r)
      ∧ Subcommand.List {} = Subcommand.List r :=
  c5_list_grammar.1 Report.parse ["list"] [] (Subcommand.List {}) rfl

end Argparse
